import Mathlib

/-!
Shallow embedding of the PawCounter font tooling scripts
(`regenerate_zpix_fonts.py`, `test_zpix_font.py`) and proofs about them.

Python strings are modelled as `String` / `List Char`, byte counts as `Nat`,
process exit codes as `Int`, the filesystem as a read-only map
`String → Option Nat` (path to byte size when present), and the external
process as an oracle `List String → ProcResult`.
-/

namespace PawCounter

/-! ### Range Codec: `test_zpix_font.analyze_character_range`

The Python code splits the expression on `,`, then each token containing `-`
on `-`, parses pieces with `int(piece, 16)` and expands with
`range(start_val, end_val + 1)`; single tokens become one `chr` value.
-/

/-- Value of one hexadecimal digit, either letter case; `none` for any other
character.  Models the digits accepted by Python `int(s, 16)`. -/
def hexVal (c : Char) : Option Nat :=
  if '0' ≤ c ∧ c ≤ '9' then some (c.toNat - 48)
  else if 'a' ≤ c ∧ c ≤ 'f' then some (c.toNat - 87)
  else if 'A' ≤ c ∧ c ≤ 'F' then some (c.toNat - 55)
  else none

/-- Accumulating base-16 evaluation of a digit list. -/
def parseHexAux : List Char → Nat → Option Nat
  | [], acc => some acc
  | c :: rest, acc =>
    match hexVal c with
    | some v => parseHexAux rest (16 * acc + v)
    | none => none

/-- A nonempty run of hex digits; empty input is an error, as in Python. -/
def parseHexDigits (l : List Char) : Option Nat :=
  match l with
  | [] => none
  | _ => parseHexAux l 0

/-- Models Python `int(s, 16)` on the token shapes this repository uses:
an optional `0x` / `0X` marker followed by one or more hex digits of either
letter case.  (Python additionally strips whitespace and allows a sign and
underscores; no token in this repository uses those forms.) -/
def pyIntHexChars (s : List Char) : Option Nat :=
  match s with
  | c0 :: c1 :: rest =>
    if c0 = '0' ∧ (c1 = 'x' ∨ c1 = 'X') then parseHexDigits rest
    else parseHexDigits s
  | _ => parseHexDigits s

/-- `int(s, 16)` on a `String`. -/
def pyIntHex (s : String) : Option Nat :=
  pyIntHexChars s.data

/-- Models Python `chr(n)`: defined exactly for `0 ≤ n ≤ 0x10FFFF`; we keep
the scalar value itself. -/
def pyChr (n : Nat) : Option Nat :=
  if n ≤ 1114111 then some n else none

/-- `chr` applied to every element, failing if any application fails
(the Python loop raises and aborts on the first bad value). -/
def chrList : List Nat → Option (List Nat)
  | [] => some []
  | n :: ns =>
    match pyChr n, chrList ns with
    | some c, some rest => some (c :: rest)
    | _, _ => none

/-- Models Python `str.split(sep)` with an explicit one-character separator:
keeps empty pieces, `splitOnChar sep [] = [[]]`. -/
def splitOnChar (sep : Char) : List Char → List (List Char)
  | [] => [[]]
  | c :: rest =>
    if c = sep then [] :: splitOnChar sep rest
    else
      match splitOnChar sep rest with
      | [] => [[c]]
      | piece :: pieces => (c :: piece) :: pieces

/-- One token of the range expression, as the loop body of
`analyze_character_range` treats it: a token containing `-` is split on `-`
into exactly two pieces (`start, end = r.split('-')`, any other piece count
is an unpacking error) and expanded with `range(start_val, end_val + 1)`;
otherwise it is a single `chr(int(r, 16))`. -/
def decodeTokenChars (r : List Char) : Option (List Nat) :=
  if '-' ∈ r then
    match splitOnChar '-' r with
    | [st, en] =>
      match pyIntHexChars st, pyIntHexChars en with
      | some s, some e => chrList (List.range' s (e + 1 - s))
      | _, _ => none
    | _ => none
  else
    match pyIntHexChars r with
    | some v =>
      match pyChr v with
      | some c => some [c]
      | none => none
    | none => none

/-- The accumulating loop over tokens: results are concatenated in token
order; any error aborts the whole decode (a Python exception escapes the
function). -/
def decodeTokens : List (List Char) → Option (List Nat)
  | [] => some []
  | t :: ts =>
    match decodeTokenChars t, decodeTokens ts with
    | some v, some rest => some (v ++ rest)
    | _, _ => none

/-- `analyze_character_range`'s decode of a full hex range expression:
split on `,`, decode each token, concatenate. -/
def decodeChars (expr : List Char) : Option (List Nat) :=
  decodeTokens (splitOnChar ',' expr)

/-- Decode on a `String` expression. -/
def decode (s : String) : Option (List Nat) :=
  decodeChars s.data

/-! ### Process and filesystem model

`subprocess.run(cmd, capture_output=True, text=True, timeout=t)` either
completes with an exit code and captured error text, raises
`TimeoutExpired`, or raises some other exception (tool missing, permission
denied, ...).  A filesystem snapshot maps a path to its byte size when the
path exists and is accessible (`os.path.exists` returns `False` on both a
missing path and an `OSError` during `stat`). -/

/-- Outcome of one `subprocess.run` call. -/
inductive ProcResult where
  | completed (returncode : Int) (stderr : String)
  | timedOut
  | raised
deriving DecidableEq

/-- A read-only filesystem snapshot: byte size of each existing,
accessible path. -/
def FileSys : Type := String → Option Nat

/-! ### Tool Availability Probe: `regenerate_zpix_fonts.check_lv_font_conv` -/

/-- The probe's fixed command line. -/
def probe_cmd : List String := ["npx", "lv_font_conv", "--help"]

/-- `check_lv_font_conv`: inside `try`, run the help command; return `True`
when it completes with exit code 0.  A nonzero exit falls out of the `try`
block, and the bare `except` swallows `TimeoutExpired` and every other
exception; all of those paths return `False`. -/
def check_lv_font_conv (run : List String → ProcResult) : Bool :=
  match run probe_cmd with
  | .completed rc _ => rc == 0
  | .timedOut => false
  | .raised => false

/-! ### Rasterization Invoker: `regenerate_zpix_fonts.generate_font` -/

/-- The literal character-range expression of `generate_font`. -/
def char_range : String :=
  "0x30-0x39,0x2B,0x2D,0x2A,0x2F,0x3D,0x2E,0x25,0x28,0x29,0x43,0x45,0x49,0x4E,0x4F,0x52,0x72,0x6F,0x65,0x74,0x61,0x6E,0x20,0x2C,0xA5,0x24"

/-- The `cmd` list that `generate_font` builds for a size and output file. -/
def build_cmd (size : Nat) (output_file : String) : List String :=
  ["npx", "lv_font_conv",
   "--font", "zpix.ttf",
   "--size", toString size,
   "--bpp", "4",
   "--format", "lvgl",
   "--no-compress",
   "--output", output_file,
   "--range", char_range]

/-- The observable result of one `generate_font` call, one constructor per
distinct branch (each prints a distinct message):
`missingInput` for the early `zpix.ttf` check, `successWithSize` for exit
code 0 with the output file present (its size is printed),
`successNoFile` for exit code 0 with the output file absent (no size is
printed but `True` is still returned), `toolError` for a nonzero exit,
`timeout` for `TimeoutExpired`, `executionError` for any other exception. -/
inductive FontGenOutcome where
  | missingInput
  | successWithSize (sizeBytes : Nat)
  | successNoFile
  | toolError (stderr : String)
  | timeout
  | executionError
deriving DecidableEq

/-- The boolean `generate_font` actually returns on each branch. -/
def FontGenOutcome.toBool : FontGenOutcome → Bool
  | .missingInput => false
  | .successWithSize _ => true
  | .successNoFile => true
  | .toolError _ => false
  | .timeout => false
  | .executionError => false

/-- Environment of one `generate_font` call: the filesystem as seen by the
initial `os.path.exists("zpix.ttf")` check, the process oracle, and the
filesystem as seen by the `os.path.exists(output_file)` check afterwards
(the tool may have written the file in between). -/
structure GenEnv where
  fs0 : FileSys
  run : List String → ProcResult
  fs1 : FileSys

/-- `generate_font(size, output_file)`: returns its branch outcome together
with the list of external commands it executed (empty or the single
`build_cmd`). -/
def generate_font (env : GenEnv) (size : Nat) (output_file : String) :
    FontGenOutcome × List (List String) :=
  if (env.fs0 "zpix.ttf").isNone then
    (.missingInput, [])
  else
    match env.run (build_cmd size output_file) with
    | .completed rc stderr =>
      if rc = 0 then
        match env.fs1 output_file with
        | some n => (.successWithSize n, [build_cmd size output_file])
        | none => (.successNoFile, [build_cmd size output_file])
      else (.toolError stderr, [build_cmd size output_file])
    | .timedOut => (.timeout, [build_cmd size output_file])
    | .raised => (.executionError, [build_cmd size output_file])

/-! ### Batch run: `regenerate_zpix_fonts.generate_test_fonts` -/

/-- The fixed request list of `generate_test_fonts`. -/
def test_sizes : List (Nat × String) :=
  [(30, "src/fonts/lv_font_zpix_30.c"),
   (80, "src/fonts/lv_font_zpix_80.c"),
   (100, "src/fonts/lv_font_zpix_100.c")]

/-- The `for size, output in test_sizes` loop: every request is processed in
order (the loop has no break), the counter is bumped when `generate_font`
returns `True`.  Returns the final counter together with the list of
requests that were attempted, in order.  `envOf` supplies each request's
environment (the filesystem and process state at that iteration). -/
def batch_run (envOf : Nat × String → GenEnv) :
    List (Nat × String) → Nat × List (Nat × String)
  | [] => (0, [])
  | (size, output) :: rest =>
    let ok := (generate_font (envOf (size, output)) size output).1.toBool
    let r := batch_run envOf rest
    ((if ok then 1 else 0) + r.1, (size, output) :: r.2)

/-- `generate_test_fonts`: runs the batch over `test_sizes` and reports
`success_count` of `len(test_sizes)` in its summary line. -/
def generate_test_fonts (envOf : Nat × String → GenEnv) : Nat × Nat :=
  ((batch_run envOf test_sizes).1, test_sizes.length)

/-! ### Artifact Inspector: `test_zpix_font.check_generated_files` -/

/-- The loop body for one path: `os.path.exists` then `os.path.getsize`.
Records whether the path exists and, when it does, its byte size. -/
def inspectPath (fs : FileSys) (p : String) : Bool × Option Nat :=
  match fs p with
  | some sz => (true, some sz)
  | none => (false, none)

/-- The `for file in font_files` scan, generalized to its caller-supplied
path list: one record per path, in order; a missing path is recorded, not
an error. -/
def inspect (fs : FileSys) (paths : List String) : List (Bool × Option Nat) :=
  paths.map (inspectPath fs)

/-- The fixed path list of `check_generated_files`. -/
def font_files : List String :=
  ["src/fonts/lv_font_zpix_20.c",
   "src/fonts/lv_font_zpix_60.c",
   "src/fonts/lv_font_zpix.h"]

/-- `check_generated_files` scans its fixed list. -/
def check_generated_files (fs : FileSys) : List (Bool × Option Nat) :=
  inspect fs font_files

/-! ### Budget Verifier: `test_zpix_font.check_memory_usage` -/

/-- ESP32-S3 flash capacity used by `check_memory_usage`. -/
def esp32_flash : Nat := 2 * 1024 * 1024

/-- ESP32-S3 RAM capacity constant (informational only in the code). -/
def esp32_ram : Nat := 327680

/-- What `check_memory_usage` reports: the two per-file sizes it may print,
the `total` it computes, and the printed flash occupancy percentage
`total / esp32_flash * 100` (exact rational; the script formats it to two
decimals). -/
structure MemReport where
  size20 : Option Nat
  size60 : Option Nat
  total : Nat
  flashPct : ℚ
deriving DecidableEq

/-- `check_memory_usage`: `size_20` / `size_60` are bound only when the
corresponding file exists, and
`total = size_20 + size_60 if 'size_20' in locals() and 'size_60' in
locals() else 0` — so the sum is taken only when both files exist and the
total is `0` otherwise. -/
def check_memory_usage (fs : FileSys) : MemReport :=
  let size_20 := fs "src/fonts/lv_font_zpix_20.c"
  let size_60 := fs "src/fonts/lv_font_zpix_60.c"
  let total : Nat :=
    match size_20, size_60 with
    | some a, some b => a + b
    | _, _ => 0
  { size20 := size_20
    size60 := size_60
    total := total
    flashPct := (total : ℚ) / (esp32_flash : ℚ) * 100 }

/-! ### Helper lemmas about the Range Codec -/

theorem pyIntHexChars_cons₂ (c0 c1 : Char) (rest : List Char) :
    pyIntHexChars (c0 :: c1 :: rest) =
      if c0 = '0' ∧ (c1 = 'x' ∨ c1 = 'X') then parseHexDigits rest
      else parseHexDigits (c0 :: c1 :: rest) := rfl

theorem parseHexAux_mem {l : List Char} {acc n : Nat}
    (h : parseHexAux l acc = some n) : ∀ c ∈ l, (hexVal c).isSome := by
  induction l generalizing acc with
  | nil => intro c hc; cases hc
  | cons d rest ih =>
    intro c hc
    unfold parseHexAux at h
    cases hv : hexVal d with
    | none => rw [hv] at h; cases h
    | some v =>
      rw [hv] at h
      rcases List.mem_cons.mp hc with rfl | hc2
      · simp [hv]
      · exact ih h c hc2

theorem parseHexDigits_mem {l : List Char} {n : Nat}
    (h : parseHexDigits l = some n) : ∀ c ∈ l, (hexVal c).isSome := by
  cases l with
  | nil => intro c hc; cases hc
  | cons d rest => exact parseHexAux_mem h

theorem pyIntHexChars_mem {s : List Char} {n : Nat}
    (h : pyIntHexChars s = some n) :
    ∀ c ∈ s, (hexVal c).isSome ∨ c = '0' ∨ c = 'x' ∨ c = 'X' := by
  intro c hc
  cases s with
  | nil => cases hc
  | cons c0 rest0 =>
    cases rest0 with
    | nil =>
      exact Or.inl (parseHexDigits_mem (show parseHexDigits [c0] = some n from h) c hc)
    | cons c1 rest =>
      by_cases hp : c0 = '0' ∧ (c1 = 'x' ∨ c1 = 'X')
      · have h' : parseHexDigits rest = some n := by
          rw [pyIntHexChars_cons₂] at h; rwa [if_pos hp] at h
        rcases List.mem_cons.mp hc with rfl | hc1
        · exact Or.inr (Or.inl hp.1)
        · rcases List.mem_cons.mp hc1 with rfl | hc2
          · rcases hp.2 with rfl | rfl
            · exact Or.inr (Or.inr (Or.inl rfl))
            · exact Or.inr (Or.inr (Or.inr rfl))
          · exact Or.inl (parseHexDigits_mem h' c hc2)
      · have h' : parseHexDigits (c0 :: c1 :: rest) = some n := by
          rw [pyIntHexChars_cons₂] at h; rwa [if_neg hp] at h
        exact Or.inl (parseHexDigits_mem h' c hc)

theorem pyIntHexChars_not_dash {s : List Char} {n : Nat}
    (h : pyIntHexChars s = some n) : '-' ∉ s := by
  intro hm
  rcases pyIntHexChars_mem h '-' hm with hv | h0 | hx | hX
  · exact absurd hv (by decide)
  · exact absurd h0 (by decide)
  · exact absurd hx (by decide)
  · exact absurd hX (by decide)

theorem splitOnChar_of_not_mem {sep : Char} {xs : List Char} (h : sep ∉ xs) :
    splitOnChar sep xs = [xs] := by
  induction xs with
  | nil => rfl
  | cons c rest ih =>
    have hc : ¬(c = sep) := fun he => h (he ▸ List.mem_cons_self c rest)
    have hr : sep ∉ rest := fun hm => h (List.mem_cons_of_mem _ hm)
    simp [splitOnChar, hc, ih hr]

theorem splitOnChar_append {sep : Char} {xs ys : List Char} (h : sep ∉ xs) :
    splitOnChar sep (xs ++ sep :: ys) = xs :: splitOnChar sep ys := by
  induction xs with
  | nil => simp [splitOnChar]
  | cons c rest ih =>
    have hc : ¬(c = sep) := fun he => h (he ▸ List.mem_cons_self c rest)
    have hr : sep ∉ rest := fun hm => h (List.mem_cons_of_mem _ hm)
    simp [splitOnChar, hc, ih hr]

theorem chrList_of_le {l : List Nat} (h : ∀ x ∈ l, x ≤ 1114111) :
    chrList l = some l := by
  induction l with
  | nil => rfl
  | cons n ns ih =>
    have hn : n ≤ 1114111 := h n (List.mem_cons_self n ns)
    have hr := ih (fun x hx => h x (List.mem_cons_of_mem _ hx))
    simp [chrList, pyChr, hn, hr]

theorem decodeToken_interval {a b : List Char} {lo hi : Nat}
    (ha : pyIntHexChars a = some lo) (hb : pyIntHexChars b = some hi) :
    decodeTokenChars (a ++ '-' :: b) = chrList (List.range' lo (hi + 1 - lo)) := by
  have hda : '-' ∉ a := pyIntHexChars_not_dash ha
  have hdb : '-' ∉ b := pyIntHexChars_not_dash hb
  have hmem : '-' ∈ a ++ '-' :: b :=
    List.mem_append_right a (List.mem_cons_self '-' b)
  have hsp : splitOnChar '-' (a ++ '-' :: b) = [a, b] := by
    rw [splitOnChar_append hda, splitOnChar_of_not_mem hdb]
  unfold decodeTokenChars
  rw [if_pos hmem, hsp]
  simp [ha, hb]

theorem decodeToken_single {r : List Char} {v : Nat}
    (h : pyIntHexChars r = some v) (hv : v ≤ 1114111) :
    decodeTokenChars r = some [v] := by
  have hd : '-' ∉ r := pyIntHexChars_not_dash h
  unfold decodeTokenChars
  rw [if_neg hd]
  simp [h, pyChr, hv]

theorem decodeTokens_none {t : List Char} {ts : List (List Char)}
    (hm : t ∈ ts) (hn : decodeTokenChars t = none) : decodeTokens ts = none := by
  induction ts with
  | nil => cases hm
  | cons a as ih =>
    rcases List.mem_cons.mp hm with rfl | hm2
    · simp [decodeTokens, hn]
    · cases ha : decodeTokenChars a <;> simp [decodeTokens, ha, ih hm2]

theorem decodeTokens_join {ts : List (List Char)} {out : List (List Nat)}
    (h : List.Forall₂ (fun t o => decodeTokenChars t = some o) ts out) :
    decodeTokens ts = some out.flatten := by
  induction h with
  | nil => rfl
  | cons ht _ ih =>
    simp [decodeTokens, ht, ih]

theorem mem_range'_le {lo n x : Nat} (hx : x ∈ List.range' lo n) :
    x ≤ lo + n - 1 := by
  rcases List.mem_range'_1.mp hx with ⟨h1, h2⟩
  omega

theorem not_dash_of_hexdigits {d : List Char} (h : ∀ c ∈ d, (hexVal c).isSome) :
    '-' ∉ d :=
  fun hm => absurd (h '-' hm) (by decide)

theorem pyIntHexChars_hexdigits {d : List Char} (h : ∀ c ∈ d, (hexVal c).isSome) :
    pyIntHexChars d = parseHexDigits d := by
  cases d with
  | nil => rfl
  | cons c0 rest0 =>
    cases rest0 with
    | nil => rfl
    | cons c1 rest =>
      rw [pyIntHexChars_cons₂]
      have h1 : (hexVal c1).isSome :=
        h c1 (List.mem_cons_of_mem _ (List.mem_cons_self _ _))
      have hx : ¬(c0 = '0' ∧ (c1 = 'x' ∨ c1 = 'X')) := by
        rintro ⟨-, rfl | rfl⟩
        · exact absurd h1 (by decide)
        · exact absurd h1 (by decide)
      rw [if_neg hx]

theorem pyIntHexChars_prefix_x {d : List Char} (h : ∀ c ∈ d, (hexVal c).isSome) :
    pyIntHexChars ('0' :: 'x' :: d) = pyIntHexChars d := by
  rw [pyIntHexChars_cons₂, if_pos ⟨rfl, Or.inl rfl⟩, pyIntHexChars_hexdigits h]

theorem pyIntHexChars_prefix_X {d : List Char} (h : ∀ c ∈ d, (hexVal c).isSome) :
    pyIntHexChars ('0' :: 'X' :: d) = pyIntHexChars d := by
  rw [pyIntHexChars_cons₂, if_pos ⟨rfl, Or.inr rfl⟩, pyIntHexChars_hexdigits h]

theorem decodeToken_prefix_single (pre : Char) (hpre : pre = 'x' ∨ pre = 'X')
    (d : List Char) (h : ∀ c ∈ d, (hexVal c).isSome) :
    decodeTokenChars ('0' :: pre :: d) = decodeTokenChars d := by
  have hd : '-' ∉ d := not_dash_of_hexdigits h
  have hd2 : '-' ∉ ('0' :: pre :: d) := by
    intro hm
    rcases List.mem_cons.mp hm with h0 | hm1
    · exact absurd h0 (by decide)
    rcases List.mem_cons.mp hm1 with hp | hm2
    · rcases hpre with rfl | rfl
      · exact absurd hp (by decide)
      · exact absurd hp (by decide)
    · exact hd hm2
  have hpi : pyIntHexChars ('0' :: pre :: d) = pyIntHexChars d := by
    rcases hpre with rfl | rfl
    · exact pyIntHexChars_prefix_x h
    · exact pyIntHexChars_prefix_X h
  unfold decodeTokenChars
  rw [if_neg hd2, if_neg hd, hpi]

theorem decodeToken_prefix_interval (a b : List Char)
    (hA : ∀ c ∈ a, (hexVal c).isSome) (hB : ∀ c ∈ b, (hexVal c).isSome) :
    decodeTokenChars (('0' :: 'x' :: a) ++ '-' :: ('0' :: 'x' :: b)) =
      decodeTokenChars (a ++ '-' :: b) := by
  have hda : '-' ∉ a := not_dash_of_hexdigits hA
  have hdb : '-' ∉ b := not_dash_of_hexdigits hB
  have hda2 : '-' ∉ ('0' :: 'x' :: a) := by
    intro hm
    rcases List.mem_cons.mp hm with h0 | hm1
    · exact absurd h0 (by decide)
    rcases List.mem_cons.mp hm1 with h1 | hm2
    · exact absurd h1 (by decide)
    · exact hda hm2
  have hdb2 : '-' ∉ ('0' :: 'x' :: b) := by
    intro hm
    rcases List.mem_cons.mp hm with h0 | hm1
    · exact absurd h0 (by decide)
    rcases List.mem_cons.mp hm1 with h1 | hm2
    · exact absurd h1 (by decide)
    · exact hdb hm2
  have hm1 : '-' ∈ ('0' :: 'x' :: a) ++ '-' :: ('0' :: 'x' :: b) :=
    List.mem_append_right _ (List.mem_cons_self _ _)
  have hm2 : '-' ∈ a ++ '-' :: b :=
    List.mem_append_right _ (List.mem_cons_self _ _)
  have e1 : pyIntHexChars ('0' :: 'x' :: a) = pyIntHexChars a :=
    pyIntHexChars_prefix_x hA
  have e2 : pyIntHexChars ('0' :: 'x' :: b) = pyIntHexChars b :=
    pyIntHexChars_prefix_x hB
  unfold decodeTokenChars
  rw [if_pos hm1, if_pos hm2,
      splitOnChar_append hda2, splitOnChar_of_not_mem hdb2,
      splitOnChar_append hda, splitOnChar_of_not_mem hdb]
  simp only [e1, e2]

/-! ### Claim theorems about the Range Codec -/

/-- Claim C3, amended: decode fails when any token of the expression is not
a valid hex literal or interval, but an interval token with `lo > hi` is not
an error — `range(lo, hi + 1)` is empty, so the token decodes successfully
and contributes zero values. -/
theorem claim_C3 :
    (∀ (a b : List Char) (lo hi : Nat), pyIntHexChars a = some lo →
      pyIntHexChars b = some hi → hi < lo →
      decodeTokenChars (a ++ '-' :: b) = some []) ∧
    (∀ (expr t : List Char), t ∈ splitOnChar ',' expr →
      decodeTokenChars t = none → decodeChars expr = none) := by
  constructor
  · intro a b lo hi ha hb hlt
    rw [decodeToken_interval ha hb]
    have h0 : hi + 1 - lo = 0 := by omega
    rw [h0]
    rfl
  · intro expr t hm hn
    unfold decodeChars
    exact decodeTokens_none hm hn

/-- Claim C3 counterexample: decoding the single-interval expression
`0x33-0x30` (lo greater than hi) succeeds with an empty result instead of
failing. -/
theorem claim_C3_counterexample :
    decode "0x33-0x30" = some [] ∧ decode "0x33-0x30" ≠ none := by decide

/-- Claim C3 witness: the amended claim at concrete inputs — the reversed
interval `0x33-0x30` decodes to zero values, and the expression `zz`
(not hex) fails. -/
theorem claim_C3_witness :
    decodeTokenChars ("0x33".data ++ '-' :: "0x30".data) = some [] ∧
    decodeChars "zz".data = none :=
  ⟨claim_C3.1 "0x33".data "0x30".data 51 48 (by decide) (by decide) (by decide),
   claim_C3.2 "zz".data "zz".data (by decide) (by decide)⟩

/-- Claim C4: an interval token `lo-hi` with `lo ≤ hi` expands to exactly
`hi - lo + 1` scalar values in strictly ascending order; a single token
emits one scalar value; per-token results are concatenated preserving token
order; `decode "0x30-0x33,0x2B"` is the five scalars of `0 1 2 3 +`. -/
theorem claim_C4 :
    (∀ (a b : List Char) (lo hi : Nat), pyIntHexChars a = some lo →
      pyIntHexChars b = some hi → lo ≤ hi → hi ≤ 1114111 →
      decodeTokenChars (a ++ '-' :: b) = some (List.range' lo (hi + 1 - lo)) ∧
      (List.range' lo (hi + 1 - lo)).length = hi - lo + 1 ∧
      List.Pairwise (· < ·) (List.range' lo (hi + 1 - lo))) ∧
    (∀ (r : List Char) (v : Nat), pyIntHexChars r = some v → v ≤ 1114111 →
      decodeTokenChars r = some [v]) ∧
    (∀ (expr : List Char) (out : List (List Nat)),
      List.Forall₂ (fun t o => decodeTokenChars t = some o)
        (splitOnChar ',' expr) out →
      decodeChars expr = some out.flatten) ∧
    decode "0x30-0x33,0x2B" = some [48, 49, 50, 51, 43] := by
  refine ⟨?_, ?_, ?_, by decide⟩
  · intro a b lo hi ha hb hle hhi
    refine ⟨?_, ?_, List.pairwise_lt_range' lo (hi + 1 - lo)⟩
    · rw [decodeToken_interval ha hb]
      exact chrList_of_le (fun x hx => le_trans (mem_range'_le hx) (by omega))
    · rw [List.length_range']; omega
  · intro r v h hv
    exact decodeToken_single h hv
  · intro expr out h
    unfold decodeChars
    exact decodeTokens_join h

/-- Claim C4 witness: the interval `0x30-0x33` expands to four ascending
scalars, the single token `0x2B` to one, and a two-token expression
concatenates in order. -/
theorem claim_C4_witness :
    decodeTokenChars ("0x30".data ++ '-' :: "0x33".data) = some [48, 49, 50, 51] ∧
    decodeTokenChars "0x2B".data = some [43] ∧
    decodeChars "0x30,0x2B".data = some [48, 43] := by
  refine ⟨?_, ?_, ?_⟩
  · have h := (claim_C4.1 "0x30".data "0x33".data 48 51 (by decide) (by decide)
      (by decide) (by decide)).1
    simpa using h
  · exact claim_C4.2.1 "0x2B".data 43 (by decide) (by decide)
  · have hsp : splitOnChar ',' "0x30,0x2B".data = ["0x30".data, "0x2B".data] := by
      decide
    have hf : List.Forall₂ (fun t o => decodeTokenChars t = some o)
        (splitOnChar ',' "0x30,0x2B".data) [[48], [43]] := by
      rw [hsp]
      exact List.Forall₂.cons (by decide) (List.Forall₂.cons (by decide) List.Forall₂.nil)
    simpa using claim_C4.2.2.1 "0x30,0x2B".data [[48], [43]] hf

/-- Claim C10: token parsing has base-16 semantics accepting the value with
or without a `0x` / `0X` marker in either letter case, so adding the marker
to a token — single or either interval endpoint — leaves the decoded
sequence unchanged; concretely `decode "30-39,2b"` equals
`decode "0x30-0X39,0x2B"`. -/
theorem claim_C10 :
    (∀ d : List Char, (∀ c ∈ d, (hexVal c).isSome) →
      pyIntHexChars ('0' :: 'x' :: d) = pyIntHexChars d ∧
      pyIntHexChars ('0' :: 'X' :: d) = pyIntHexChars d ∧
      decodeTokenChars ('0' :: 'x' :: d) = decodeTokenChars d ∧
      decodeTokenChars ('0' :: 'X' :: d) = decodeTokenChars d) ∧
    (∀ a b : List Char, (∀ c ∈ a, (hexVal c).isSome) →
      (∀ c ∈ b, (hexVal c).isSome) →
      decodeTokenChars (('0' :: 'x' :: a) ++ '-' :: ('0' :: 'x' :: b)) =
        decodeTokenChars (a ++ '-' :: b)) ∧
    decode "30-39,2b" = decode "0x30-0X39,0x2B" := by
  refine ⟨?_, decodeToken_prefix_interval, by decide⟩
  intro d h
  exact ⟨pyIntHexChars_prefix_x h, pyIntHexChars_prefix_X h,
         decodeToken_prefix_single 'x' (Or.inl rfl) d h,
         decodeToken_prefix_single 'X' (Or.inr rfl) d h⟩

/-- Claim C10 witness: marker invariance at concrete tokens. -/
theorem claim_C10_witness :
    pyIntHexChars ('0' :: 'x' :: "2b".data) = pyIntHexChars "2b".data ∧
    decodeTokenChars ('0' :: 'X' :: "39".data) = decodeTokenChars "39".data ∧
    decodeTokenChars (('0' :: 'x' :: "30".data) ++ '-' :: ('0' :: 'x' :: "39".data)) =
      decodeTokenChars ("30".data ++ '-' :: "39".data) :=
  ⟨(claim_C10.1 "2b".data (by decide)).1,
   (claim_C10.1 "39".data (by decide)).2.2.2,
   claim_C10.2.1 "30".data "39".data (by decide) (by decide)⟩

/-! ### Claim theorems about the invoker, probe, inspector and verifier -/

/-- Claim C7: the probe returns true exactly when the help invocation
completes with exit code 0; a nonzero exit, a timeout, or any raised
exception yields false (the probe is a total function — nothing
propagates). -/
theorem claim_C7 (run : List String → ProcResult) :
    (check_lv_font_conv run = true ↔
      ∃ s, run probe_cmd = .completed 0 s) ∧
    (∀ (rc : Int) (s : String), run probe_cmd = .completed rc s → rc ≠ 0 →
      check_lv_font_conv run = false) ∧
    (run probe_cmd = .timedOut → check_lv_font_conv run = false) ∧
    (run probe_cmd = .raised → check_lv_font_conv run = false) := by
  refine ⟨⟨?_, ?_⟩, ?_, ?_, ?_⟩
  · intro hb
    unfold check_lv_font_conv at hb
    cases h : run probe_cmd with
    | completed rc s =>
      rw [h] at hb
      simp only [beq_iff_eq] at hb
      exact ⟨s, by rw [hb]⟩
    | timedOut => rw [h] at hb; cases hb
    | raised => rw [h] at hb; cases hb
  · rintro ⟨s, hs⟩
    unfold check_lv_font_conv
    rw [hs]
    rfl
  · intro rc s h hne
    unfold check_lv_font_conv
    rw [h]
    simp only [beq_eq_false_iff_ne, ne_eq]
    exact hne
  · intro h
    unfold check_lv_font_conv
    rw [h]
  · intro h
    unfold check_lv_font_conv
    rw [h]

/-- Claim C7 witness: the probe at four concrete process oracles — success,
nonzero exit, timeout, and a raised exception (nonexistent executable). -/
theorem claim_C7_witness :
    check_lv_font_conv (fun _ => .completed 0 "") = true ∧
    check_lv_font_conv (fun _ => .completed 1 "boom") = false ∧
    check_lv_font_conv (fun _ => .timedOut) = false ∧
    check_lv_font_conv (fun _ => .raised) = false :=
  ⟨(claim_C7 (fun _ => .completed 0 "")).1.mpr ⟨"", rfl⟩,
   (claim_C7 (fun _ => .completed 1 "boom")).2.1 1 "boom" rfl (by decide),
   (claim_C7 (fun _ => .timedOut)).2.2.1 rfl,
   (claim_C7 (fun _ => .raised)).2.2.2 rfl⟩

/-- Claim C5: when the source font file is absent, `generate_font`
short-circuits to its distinct missing-input branch and executes no
external command at all. -/
theorem claim_C5 (env : GenEnv) (size : Nat) (output_file : String)
    (h : env.fs0 "zpix.ttf" = none) :
    generate_font env size output_file = (.missingInput, []) := by
  unfold generate_font
  rw [h]
  rfl

/-- Claim C5 witness: a concrete environment with no files at all — the
outcome is `missingInput` and the executed-command list is empty. -/
theorem claim_C5_witness :
    generate_font ⟨fun _ => none, fun _ => .completed 0 "", fun _ => none⟩
      30 "src/fonts/lv_font_zpix_30.c" = (.missingInput, []) :=
  claim_C5 ⟨fun _ => none, fun _ => .completed 0 "", fun _ => none⟩
    30 "src/fonts/lv_font_zpix_30.c" rfl

/-- Claim C2 counterexample: with the source font present, an exit-code-zero
completion whose declared output file is absent afterwards is still
classified as a success — `generate_font` returns `True` (the exists check
only guards printing the size). -/
theorem claim_C2_counterexample :
    ((generate_font ⟨fun _ => some 1, fun _ => .completed 0 "", fun _ => none⟩
        30 "src/fonts/lv_font_zpix_30.c").1).toBool = true ∧
    (generate_font ⟨fun _ => some 1, fun _ => .completed 0 "", fun _ => none⟩
        30 "src/fonts/lv_font_zpix_30.c").1 = .successNoFile := by
  decide

/-- Claim C2, amended: `generate_font` classifies an invocation as a success
(returns `True`) exactly when the external process completes with exit code
zero, regardless of whether the declared output path is present afterwards;
the output file's byte size is carried only when the file is present, and an
exit-zero completion without the file still counts as a success, with no
size. -/
theorem claim_C2 (env : GenEnv) (size : Nat) (output_file : String)
    (hsrc : (env.fs0 "zpix.ttf").isSome) :
    ((generate_font env size output_file).1.toBool = true ↔
      ∃ s, env.run (build_cmd size output_file) = .completed 0 s) ∧
    (∀ (s : String) (n : Nat),
      env.run (build_cmd size output_file) = .completed 0 s →
      env.fs1 output_file = some n →
      (generate_font env size output_file).1 = .successWithSize n) ∧
    (∀ s : String, env.run (build_cmd size output_file) = .completed 0 s →
      env.fs1 output_file = none →
      (generate_font env size output_file).1 = .successNoFile) := by
  obtain ⟨v, hv⟩ := Option.isSome_iff_exists.mp hsrc
  cases h : env.run (build_cmd size output_file) with
  | completed rc s =>
    by_cases hrc : rc = 0
    · subst hrc
      cases hout : env.fs1 output_file with
      | some n =>
        refine ⟨?_, ?_, ?_⟩ <;>
          simp [generate_font, hv, h, hout, FontGenOutcome.toBool]
      | none =>
        refine ⟨?_, ?_, ?_⟩ <;>
          simp [generate_font, hv, h, hout, FontGenOutcome.toBool]
    · refine ⟨?_, ?_, ?_⟩ <;>
        simp [generate_font, hv, h, hrc, FontGenOutcome.toBool]
  | timedOut =>
    refine ⟨?_, ?_, ?_⟩ <;> simp [generate_font, hv, h, FontGenOutcome.toBool]
  | raised =>
    refine ⟨?_, ?_, ?_⟩ <;> simp [generate_font, hv, h, FontGenOutcome.toBool]

/-- Claim C2 witness: with source present and exit code zero, the outcome
carries the output file's size when the file exists, and is the size-less
success when it does not. -/
theorem claim_C2_witness :
    (generate_font ⟨fun _ => some 1, fun _ => .completed 0 "", fun _ => some 1024⟩
        30 "src/fonts/lv_font_zpix_30.c").1 = .successWithSize 1024 ∧
    (generate_font ⟨fun _ => some 1, fun _ => .completed 0 "", fun _ => none⟩
        30 "src/fonts/lv_font_zpix_30.c").1.toBool = true :=
  ⟨(claim_C2 ⟨fun _ => some 1, fun _ => .completed 0 "", fun _ => some 1024⟩
      30 "src/fonts/lv_font_zpix_30.c" (by decide)).2.1 "" 1024 rfl rfl,
   (claim_C2 ⟨fun _ => some 1, fun _ => .completed 0 "", fun _ => none⟩
      30 "src/fonts/lv_font_zpix_30.c" (by decide)).1.mpr ⟨"", rfl⟩⟩

/-- Claim C6: the command line is built in one fixed canonical order — tool
invocation, font source, point size, bit depth, output format, the
compression toggle, destination path, then the range — the range argument
is the literal hex-token string `char_range` (whose decode has 35 scalar
values, while the command always has exactly 15 entries, so the decoded
sequence is never embedded), and an invocation with the source present
executes exactly that command. -/
theorem claim_C6 (size : Nat) (output_file : String) :
    build_cmd size output_file =
      ["npx", "lv_font_conv"] ++ ["--font", "zpix.ttf"] ++
      ["--size", toString size] ++ ["--bpp", "4"] ++
      ["--format", "lvgl"] ++ ["--no-compress"] ++
      ["--output", output_file] ++ ["--range", char_range] ∧
    (build_cmd size output_file).length = 15 ∧
    (decode char_range).map List.length = some 35 ∧
    (∀ env : GenEnv, (env.fs0 "zpix.ttf").isSome →
      (generate_font env size output_file).2 = [build_cmd size output_file]) := by
  refine ⟨rfl, rfl, by decide, ?_⟩
  intro env hsrc
  obtain ⟨v, hv⟩ := Option.isSome_iff_exists.mp hsrc
  cases h : env.run (build_cmd size output_file) with
  | completed rc s =>
    by_cases hrc : rc = 0
    · subst hrc
      cases hout : env.fs1 output_file <;> simp [generate_font, hv, h, hout]
    · simp [generate_font, hv, h, hrc]
  | timedOut => simp [generate_font, hv, h]
  | raised => simp [generate_font, hv, h]

/-- Claim C6 witness: with the source present, the one executed command is
`build_cmd`. -/
theorem claim_C6_witness :
    (generate_font ⟨fun _ => some 1, fun _ => .timedOut, fun _ => none⟩
        30 "src/fonts/lv_font_zpix_30.c").2 =
      [build_cmd 30 "src/fonts/lv_font_zpix_30.c"] :=
  (claim_C6 30 "src/fonts/lv_font_zpix_30.c").2.2.2
    ⟨fun _ => some 1, fun _ => .timedOut, fun _ => none⟩ (by decide)

/-- Claim C8: the inspector records, for each path of its caller-supplied
list in order, whether the path exists and — when it does — its byte size;
a missing or inaccessible path yields an `exists = false` entry instead of
aborting the scan (the function is total and touches nothing). -/
theorem claim_C8 (fs : FileSys) (paths : List String) :
    (inspect fs paths).length = paths.length ∧
    (∀ i : Nat, (inspect fs paths)[i]? = (paths[i]?).map (inspectPath fs)) ∧
    (∀ (p : String) (sz : Nat), fs p = some sz →
      inspectPath fs p = (true, some sz)) ∧
    (∀ p : String, fs p = none → inspectPath fs p = (false, none)) ∧
    check_generated_files fs = inspect fs font_files := by
  refine ⟨List.length_map _ _, ?_, ?_, ?_, rfl⟩
  · intro i
    exact List.getElem?_map (inspectPath fs) paths i
  · intro p sz h
    unfold inspectPath
    rw [h]
  · intro p h
    unfold inspectPath
    rw [h]

/-- Claim C8 witness: the spec's example — one path that exists with size
1024 and one that does not. -/
theorem claim_C8_witness :
    inspectPath (fun p => if p = "a.c" then some 1024 else none) "a.c" =
      (true, some 1024) ∧
    inspectPath (fun p => if p = "a.c" then some 1024 else none) "b.c" =
      (false, none) ∧
    (inspect (fun p => if p = "a.c" then some 1024 else none) ["a.c", "b.c"]).length = 2 :=
  ⟨(claim_C8 (fun p => if p = "a.c" then some 1024 else none) ["a.c", "b.c"]).2.2.1
      "a.c" 1024 (by decide),
   (claim_C8 (fun p => if p = "a.c" then some 1024 else none) ["a.c", "b.c"]).2.2.2.1
      "b.c" (by decide),
   (claim_C8 (fun p => if p = "a.c" then some 1024 else none) ["a.c", "b.c"]).1⟩

/-- Claim C9: in a batch run, every requested size is attempted exactly
once, in order, regardless of failures on earlier sizes, and the reported
count of successes is the number of requests whose `generate_font` returned
`True`, out of the number of requested sizes (3 for `test_sizes`). -/
theorem claim_C9 (envOf : Nat × String → GenEnv) (sizes : List (Nat × String)) :
    (batch_run envOf sizes).2 = sizes ∧
    (batch_run envOf sizes).1 =
      sizes.countP (fun r => (generate_font (envOf r) r.1 r.2).1.toBool) ∧
    (batch_run envOf sizes).1 ≤ sizes.length ∧
    generate_test_fonts envOf = ((batch_run envOf test_sizes).1, 3) := by
  refine ⟨?_, ?_, ?_, rfl⟩
  · induction sizes with
    | nil => rfl
    | cons r rest ih =>
      obtain ⟨size, output⟩ := r
      simp only [batch_run, ih]
  · induction sizes with
    | nil => rfl
    | cons r rest ih =>
      obtain ⟨size, output⟩ := r
      simp only [batch_run, ih, List.countP_cons]
      cases hgen : (generate_font (envOf (size, output)) size output).1.toBool <;>
        simp [hgen, Nat.add_comm]
  · induction sizes with
    | nil => exact Nat.le_refl 0
    | cons r rest ih =>
      obtain ⟨size, output⟩ := r
      simp only [batch_run, List.length_cons]
      cases (generate_font (envOf (size, output)) size output).1.toBool <;>
        (simp; omega)

/-- Claim C1 counterexample: with the 20px artifact present at 1024 bytes
and the 60px artifact missing, and the 2 MiB flash budget,
`check_memory_usage` reports a total of 0 bytes — not 1024 — and a flash
occupancy of 0% — not ≈0.0488% — because the sum is taken only when both
files exist. -/
theorem claim_C1_counterexample :
    (check_memory_usage
      (fun p => if p = "src/fonts/lv_font_zpix_20.c" then some 1024 else none)).size20 =
      some 1024 ∧
    (check_memory_usage
      (fun p => if p = "src/fonts/lv_font_zpix_20.c" then some 1024 else none)).size60 =
      none ∧
    (check_memory_usage
      (fun p => if p = "src/fonts/lv_font_zpix_20.c" then some 1024 else none)).total =
      0 ∧
    (check_memory_usage
      (fun p => if p = "src/fonts/lv_font_zpix_20.c" then some 1024 else none)).total ≠
      1024 ∧
    (check_memory_usage
      (fun p => if p = "src/fonts/lv_font_zpix_20.c" then some 1024 else none)).flashPct =
      0 := by
  refine ⟨rfl, rfl, rfl, by decide, ?_⟩
  show ((0 : Nat) : ℚ) / ((esp32_flash : Nat) : ℚ) * 100 = 0
  norm_num

/-- Claim C1, amended: `check_memory_usage` sums the artifact sizes and
reports the exact flash occupancy ratio over the 2 MiB capacity only when
both artifacts are present; when either entry is missing it still raises no
error, but the reported total is 0 — a missing entry zeroes the whole sum
rather than contributing zero to it — and the occupancy ratio is 0%. -/
theorem claim_C1 (fs : FileSys) :
    (∀ a b : Nat, fs "src/fonts/lv_font_zpix_20.c" = some a →
      fs "src/fonts/lv_font_zpix_60.c" = some b →
      (check_memory_usage fs).total = a + b ∧
      (check_memory_usage fs).flashPct = ((a + b : Nat) : ℚ) / 2097152 * 100) ∧
    (fs "src/fonts/lv_font_zpix_20.c" = none ∨
        fs "src/fonts/lv_font_zpix_60.c" = none →
      (check_memory_usage fs).total = 0 ∧
      (check_memory_usage fs).flashPct = 0) := by
  constructor
  · intro a b ha hb
    refine ⟨?_, ?_⟩
    · simp [check_memory_usage, ha, hb]
    · simp only [check_memory_usage, ha, hb, esp32_flash]
      norm_num
  · intro h
    cases h20 : fs "src/fonts/lv_font_zpix_20.c" with
    | none =>
      cases h60 : fs "src/fonts/lv_font_zpix_60.c" with
      | none =>
        exact ⟨by simp [check_memory_usage, h20, h60],
               by simp [check_memory_usage, h20, h60]⟩
      | some b =>
        exact ⟨by simp [check_memory_usage, h20, h60],
               by simp [check_memory_usage, h20, h60]⟩
    | some a =>
      cases h60 : fs "src/fonts/lv_font_zpix_60.c" with
      | none =>
        exact ⟨by simp [check_memory_usage, h20, h60],
               by simp [check_memory_usage, h20, h60]⟩
      | some b =>
        rcases h with h | h
        · rw [h20] at h; cases h
        · rw [h60] at h; cases h

/-- Claim C1 witness: with both artifacts present the total is their sum;
with both missing the total and the occupancy ratio are zero. -/
theorem claim_C1_witness :
    (check_memory_usage (fun p =>
      if p = "src/fonts/lv_font_zpix_20.c" then some 19456
      else if p = "src/fonts/lv_font_zpix_60.c" then some 99328
      else none)).total = 118784 ∧
    (check_memory_usage (fun _ => none)).total = 0 ∧
    (check_memory_usage (fun _ => none)).flashPct = 0 :=
  ⟨(((claim_C1 (fun p =>
      if p = "src/fonts/lv_font_zpix_20.c" then some 19456
      else if p = "src/fonts/lv_font_zpix_60.c" then some 99328
      else none)).1 19456 99328 (by decide) (by decide)).1).trans (by norm_num),
   ((claim_C1 (fun _ => none)).2 (Or.inl rfl)).1,
   ((claim_C1 (fun _ => none)).2 (Or.inl rfl)).2⟩

end PawCounter
